import Mathlib

set_option maxHeartbeats 1000000

/-!
Verification of the selection-and-batched-I/O layer of the
`atlas-ftag-tools` repository: the predicate expression engine and
selection sets (`Cuts`), the label catalog (`flavours.yaml`), and the
chunked reader (`H5Reader`) / writer (`H5Writer`) pair with on-the-fly
transforms (`Transform`).

The Python modules implementing the engine are not part of the shipped
sources here (only the example notebook, the label catalog data file and
the project documentation are), so the operational definitions below are
modelled from the specification text; each such definition says so in its
doc comment.  The label catalog data is translated directly from
`ftag/flavours.yaml`, and concrete expected outputs are taken from the
executed cells of `ftag/example.ipynb`.
-/

namespace FtagSpec

/-- A scalar cell value of a record-batch column.  Numeric scalars are
modelled as integers (every concrete scenario in the specification uses
integral values); the IEEE not-a-number value is modelled explicitly as
`nan` so that the NaN selection policy is expressible. -/
inductive Val where
  | nan : Val
  | num (i : Int) : Val
deriving DecidableEq

/-- The six scalar comparison operators of the cut grammar. -/
inductive CmpOp where
  | eq
  | ne
  | lt
  | le
  | gt
  | ge
deriving DecidableEq

/-- Modelled from the spec: a predicate expression
`{variable, operator, operand}` (`ftag/cuts.py` is not among the shipped
sources).  Scalar comparisons, membership (`in` / `notin`) over a value
list, and the two modulo forms `var % M == n` / `var % M != n`. -/
inductive Pred where
  | cmp (var : String) (op : CmpOp) (x : Int)
  | mem (var : String) (vals : List Int)
  | nmem (var : String) (vals : List Int)
  | modEq (var : String) (m : Int) (n : Int)
  | modNe (var : String) (m : Int) (n : Int)
deriving DecidableEq

/-- The variable (column name) a predicate refers to. -/
def Pred.var : Pred → String
  | .cmp v _ _ => v
  | .mem v _ => v
  | .nmem v _ => v
  | .modEq v _ _ => v
  | .modNe v _ _ => v

/-- Evaluate a scalar comparison operator on two integers. -/
def evalCmp : CmpOp → Int → Int → Bool
  | .eq, a, b => a == b
  | .ne, a, b => a != b
  | .lt, a, b => decide (a < b)
  | .le, a, b => decide (a ≤ b)
  | .gt, a, b => decide (b < a)
  | .ge, a, b => decide (b ≤ a)

/-- Modelled from the spec: evaluation of one predicate on one cell value.
A NaN cell never passes any operator (including `!=` and `notin`) unless
the explicit `nanPasses` flag opts into the "NaN passes" semantics; a
numeric cell is compared by the operator, with the modulo forms using
integer modulo (non-negative for a positive modulus, as in Python). -/
def evalPredVal (nanPasses : Bool) : Pred → Val → Bool
  | _, .nan => nanPasses
  | .cmp _ op x, .num a => evalCmp op a x
  | .mem _ vals, .num a => vals.contains a
  | .nmem _ vals, .num a => !(vals.contains a)
  | .modEq _ m n, .num a => a % m == n
  | .modNe _ m n, .num a => a % m != n

/-- A named record batch: a row count and an ordered list of named
columns, each a list of cell values. -/
structure Batch where
  n : Nat
  cols : List (String × List Val)
deriving DecidableEq

/-- Column lookup by name; `none` models the `MissingColumnError` case. -/
def Batch.col (b : Batch) (v : String) : Option (List Val) :=
  (b.cols.find? (fun c => c.1 == v)).map Prod.snd

/-- Evaluate one predicate on row `i` of a batch; `none` when the column
is missing or the row index is out of range. -/
def evalPredRow (nanPasses : Bool) (b : Batch) (i : Nat) (p : Pred) : Option Bool :=
  (b.col p.var).bind (fun vs => vs[i]?.map (evalPredVal nanPasses p))

/-- Keep-first de-duplication: `seen` holds the values already emitted. -/
def dedupAux (seen : List Pred) : List Pred → List Pred
  | [] => []
  | p :: ps => if p ∈ seen then dedupAux seen ps else p :: dedupAux (p :: seen) ps

/-- Remove structurally identical duplicates from a list of predicates,
keeping the first occurrence of each and preserving first-seen order. -/
def dedupFirst (l : List Pred) : List Pred :=
  dedupAux [] l

/-- Modelled from the spec: an ordered, de-duplicated selection set of
predicate expressions (the `Cuts` class; `ftag/cuts.py` is not among the
shipped sources). -/
structure Cuts where
  preds : List Pred
deriving DecidableEq

/-- Modelled from the spec: `Cuts.from_list` — raw expressions (already in
structured form) with structurally identical duplicates removed,
first-seen order preserved. -/
def Cuts.fromList (l : List Pred) : Cuts :=
  ⟨dedupFirst l⟩

/-- Modelled from the spec: `combine(a, b)` / `Cuts.__add__` — the union
of the two predicate lists (AND semantics overall), de-duplicated. -/
def Cuts.combine (a b : Cuts) : Cuts :=
  Cuts.fromList (a.preds ++ b.preds)

instance : Add Cuts := ⟨Cuts.combine⟩

/-- A row passes a selection set when every predicate evaluates to
`true` on it (a missing column or out-of-range row never passes). -/
def Cuts.passRow (nanPasses : Bool) (c : Cuts) (b : Batch) (i : Nat) : Bool :=
  c.preds.all (fun p => evalPredRow nanPasses b i p == some true)

/-- The surviving row indices of a batch, stable and ascending. -/
def Cuts.selectIdx (nanPasses : Bool) (c : Cuts) (b : Batch) : List Nat :=
  (List.range b.n).filter (c.passRow nanPasses b)

/-- Every column a selection set references is present in the batch. -/
def Cuts.wfFor (c : Cuts) (b : Batch) : Bool :=
  c.preds.all (fun p => (b.col p.var).isSome)

/-- Checked selection: fails with `MissingColumnError` when a referenced
column is absent from the batch, as the spec requires. -/
def Cuts.selectChecked (nanPasses : Bool) (c : Cuts) (b : Batch) :
    Except String (List Nat) :=
  if c.wfFor b then .ok (c.selectIdx nanPasses b) else .error "MissingColumnError"

/-- Keep only the rows of a batch whose index appears in `idx`. -/
def Batch.takeRows (b : Batch) (idx : List Nat) : Batch :=
  ⟨idx.length, b.cols.map (fun c => (c.1, idx.filterMap (fun i => c.2[i]?)))⟩

/-- The name/position dual-access result of applying a selection set:
the surviving indices and the filtered batch. -/
structure CutsResult where
  idx : List Nat
  values : Batch
deriving DecidableEq

/-- Modelled from the spec: `Cuts.__call__` / `apply(batch)` — the
surviving row indices together with the correspondingly filtered batch. -/
def Cuts.apply (nanPasses : Bool) (c : Cuts) (b : Batch) : CutsResult :=
  let idx := c.selectIdx nanPasses b
  ⟨idx, b.takeRows idx⟩

/-- A token of a predicate expression text: an identifier (the variable),
an operator or keyword symbol, an integer literal, or a parenthesised
value list.  Expression texts are modelled at token level: the spec's
grammar is whitespace-separated tokens, and numeric literals are modelled
as integers. -/
inductive Tok where
  | id (s : String)
  | sym (s : String)
  | int (i : Int)
  | vlist (vs : List Int)
deriving DecidableEq

/-- Decode a comparison operator symbol; `none` models the
`UnsupportedOperatorError` case. -/
def strToCmp (s : String) : Option CmpOp :=
  if s = "==" then some .eq
  else if s = "!=" then some .ne
  else if s = "<" then some .lt
  else if s = "<=" then some .le
  else if s = ">" then some .gt
  else if s = ">=" then some .ge
  else none

/-- The canonical symbol of each comparison operator. -/
def cmpToStr : CmpOp → String
  | .lt => "<"
  | .le => "<="
  | .gt => ">"
  | .ge => ">="
  | .eq => "=="
  | .ne => "!="

/-- Parse the three-token forms `var OP value`, `var in (…)`,
`var notin (…)`; membership requires a non-empty value list. -/
def parse3 : Tok → Tok → Tok → Option Pred
  | .id v, .sym o, .int x => (strToCmp o).map (fun op => Pred.cmp v op x)
  | .id v, .sym o, .vlist vs =>
      if o = "in" then (if vs = [] then none else some (.mem v vs))
      else if o = "notin" then (if vs = [] then none else some (.nmem v vs))
      else none
  | _, _, _ => none

/-- Parse the five-token modulo forms `var % M == n` and `var % M != n`;
a non-positive modulus fails (the `InvalidModulusError` case). -/
def parse5 : Tok → Tok → Tok → Tok → Tok → Option Pred
  | .id v, .sym pc, .int m, .sym o, .int n =>
      if pc = "%" then
        if o = "==" then (if 0 < m then some (.modEq v m n) else none)
        else if o = "!=" then (if 0 < m then some (.modNe v m n) else none)
        else none
      else none
  | _, _, _, _, _ => none

/-- Modelled from the spec: `parse(expressionText)` over the token-level
text; any shape outside the fixed grammar fails (the `ParseError` case). -/
def parse : List Tok → Option Pred
  | [a, b, c] => parse3 a b c
  | [a, b, c, d, e] => parse5 a b c d e
  | _ => none

/-- Modelled from the spec: `render()` — the deterministic canonical
token-level text of a predicate.  It is a plain function of the predicate
alone (no unordered hashing), so identical logical content always renders
identically. -/
def render : Pred → List Tok
  | .cmp v op x => [.id v, .sym (cmpToStr op), .int x]
  | .mem v vs => [.id v, .sym "in", .vlist vs]
  | .nmem v vs => [.id v, .sym "notin", .vlist vs]
  | .modEq v m n => [.id v, .sym "%", .int m, .sym "==", .int n]
  | .modNe v m n => [.id v, .sym "%", .int m, .sym "!=", .int n]

/-- The construction-time invariants of a predicate: membership operands
are non-empty and moduli are positive. -/
def wfPred : Pred → Prop
  | .cmp _ _ _ => True
  | .mem _ vs => vs ≠ []
  | .nmem _ vs => vs ≠ []
  | .modEq _ m _ => 0 < m
  | .modNe _ m _ => 0 < m

/-- A label-catalog entry, translated from `ftag/flavours.yaml`: the
flavour name, its defining cut expression strings, its category, and the
optional explicit probability-column name `_px`.  The display-only
metadata (LaTeX label text and plot colour) is elided: the specification
places plotting/colour metadata out of scope. -/
structure Label where
  name : String
  cuts : List String
  category : String
  px_ : Option String
deriving DecidableEq

/-- Python's `str.removesuffix`: drop `suf` from the end of `s` when `s`
ends with it, else return `s` unchanged. -/
def removesuffix (s suf : String) : String :=
  if suf.toList.isSuffixOf s.toList
  then String.mk (s.toList.take (s.toList.length - suf.toList.length))
  else s

/-- Modelled from the spec: the probability-column accessor `Label.px`
(`ftag/labels.py` is not among the shipped sources) — the explicit `_px`
override when set, else the letter p followed by the label name with its
"jets" suffix removed.  The expected values for the single-btag category
are recorded in the executed example notebook. -/
def Label.px (l : Label) : String :=
  l.px_.getD ("p" ++ removesuffix l.name "jets")

/-- The label catalog, translated entry by entry, in file order, from
`ftag/flavours.yaml`. -/
def flavoursList : List Label := [
  ⟨"bjets", ["HadronConeExclTruthLabelID == 5"], "single-btag", none⟩,
  ⟨"cjets", ["HadronConeExclTruthLabelID == 4"], "single-btag", none⟩,
  ⟨"ujets", ["HadronConeExclTruthLabelID == 0"], "single-btag", none⟩,
  ⟨"taujets", ["HadronConeExclTruthLabelID == 15"], "single-btag", none⟩,
  ⟨"singlebjets", ["HadronConeExclExtendedTruthLabelID == 5"], "single-btag-extended", none⟩,
  ⟨"bcjets", ["HadronConeExclExtendedTruthLabelID == 54"], "single-btag-extended", none⟩,
  ⟨"bbjets", ["HadronConeExclExtendedTruthLabelID == 55"], "single-btag-extended", none⟩,
  ⟨"singlecjets", ["HadronConeExclExtendedTruthLabelID == 4"], "single-btag-extended", none⟩,
  ⟨"ccjets", ["HadronConeExclExtendedTruthLabelID == 44"], "single-btag-extended", none⟩,
  ⟨"ghostbjets", ["HadronGhostTruthLabelID == 5"], "single-btag-ghost", some "pb"⟩,
  ⟨"ghostcjets", ["HadronGhostTruthLabelID == 4"], "single-btag-ghost", some "pc"⟩,
  ⟨"ghostsjets", ["HadronGhostTruthLabelID == 0", "PartonTruthLabelID == 3"], "single-btag-ghost", some "ps"⟩,
  ⟨"ghostudjets", ["HadronGhostTruthLabelID == 0", "PartonTruthLabelID <= 2"], "single-btag-ghost", some "pud"⟩,
  ⟨"ghostgjets", ["HadronGhostTruthLabelID == 0", "PartonTruthLabelID == 21"], "single-btag-ghost", some "pg"⟩,
  ⟨"ghosttaujets", ["HadronGhostTruthLabelID == 15"], "single-btag-ghost", some "ptau"⟩,
  ⟨"hbb", ["R10TruthLabel_R22v1 == 11"], "xbb", none⟩,
  ⟨"hcc", ["R10TruthLabel_R22v1 == 12"], "xbb", none⟩,
  ⟨"top", ["R10TruthLabel_R22v1 in (1,6,7)"], "xbb", none⟩,
  ⟨"qcd", ["R10TruthLabel_R22v1 == 10"], "xbb", none⟩,
  ⟨"qcdbb", ["R10TruthLabel_R22v1 == 10", "GhostBHadronsFinalCount >= 2"], "xbb", none⟩,
  ⟨"qcdnonbb", ["R10TruthLabel_R22v1 == 10", "GhostBHadronsFinalCount < 2"], "xbb", none⟩,
  ⟨"qcdbx", ["R10TruthLabel_R22v1 == 10", "GhostBHadronsFinalCount == 1"], "xbb", none⟩,
  ⟨"qcdcx", ["R10TruthLabel_R22v1 == 10", "GhostCHadronsFinalCount >= 1", "GhostBHadronsFinalCount == 0"], "xbb", none⟩,
  ⟨"qcdll", ["R10TruthLabel_R22v1 == 10", "GhostBHadronsFinalCount == 0", "GhostCHadronsFinalCount == 0"], "xbb", none⟩,
  ⟨"Wqq", ["R10TruthLabel_R22v1 == 2", "GhostBHadronsFinalCount < 2", "GhostCHadronsFinalCount < 2"], "xbb", none⟩,
  ⟨"htautauel", ["R10TruthLabel_R22v1 == 14"], "xbb", none⟩,
  ⟨"htautaumu", ["R10TruthLabel_R22v1 == 15"], "xbb", none⟩,
  ⟨"htautauhad", ["R10TruthLabel_R22v1 == 16"], "xbb", none⟩,
  ⟨"tqqb", ["R10TruthLabel_R22v1 == 1"], "xbb-extended", none⟩,
  ⟨"wqq_from_t", ["R10TruthLabel_R22v1 == 6"], "xbb-extended", none⟩,
  ⟨"other_from_t", ["R10TruthLabel_R22v1 == 7"], "xbb-extended", none⟩,
  ⟨"upjets", ["PartonTruthLabelID == 1"], "partonic", none⟩,
  ⟨"downjets", ["PartonTruthLabelID == 2"], "partonic", none⟩,
  ⟨"strangejets", ["PartonTruthLabelID == 3"], "partonic", none⟩,
  ⟨"gluonjets", ["HadronConeExclTruthLabelID == 0", "PartonTruthLabelID == 21"], "partonic", none⟩,
  ⟨"lquarkjets", ["HadronConeExclTruthLabelID == 0", "PartonTruthLabelID != 21"], "lepton-decay", none⟩,
  ⟨"hadrbjets", ["HadronConeExclTruthLabelID == 5", "LeptonDecayLabel == 0"], "lepton-decay", none⟩,
  ⟨"lepbjets", ["HadronConeExclTruthLabelID == 5", "LeptonDecayLabel notin (0,-99)"], "lepton-decay", none⟩,
  ⟨"singleebdecay", ["LeptonDecayLabel == 1"], "lepton-decay", none⟩,
  ⟨"singlemubdecay", ["LeptonDecayLabel == 2"], "lepton-decay", none⟩,
  ⟨"singletaubdecay", ["LeptonDecayLabel == 3"], "lepton-decay", none⟩,
  ⟨"D0meson", ["HadronConeExclTruthLabelID == 4", "HadronConeExclTruthLabelPdgId in (421,-421)"], "PDGID", none⟩,
  ⟨"nonD0meson", ["HadronConeExclTruthLabelID == 4", "HadronConeExclTruthLabelPdgId notin (421,-421)"], "PDGID", none⟩,
  ⟨"Dplusmeson", ["HadronConeExclTruthLabelID == 4", "HadronConeExclTruthLabelPdgId in (411,-411)"], "PDGID", none⟩,
  ⟨"Dsplusmeson", ["HadronConeExclTruthLabelID == 4", "HadronConeExclTruthLabelPdgId in (431,-431)"], "PDGID", none⟩,
  ⟨"B0meson", ["HadronConeExclTruthLabelID == 5", "HadronConeExclTruthLabelPdgId in (511,-511)"], "PDGID", none⟩,
  ⟨"Bplusmeson", ["HadronConeExclTruthLabelID == 5", "HadronConeExclTruthLabelPdgId in (521,-521)"], "PDGID", none⟩,
  ⟨"Bs0meson", ["HadronConeExclTruthLabelID == 5", "HadronConeExclTruthLabelPdgId in (531,-531)"], "PDGID", none⟩,
  ⟨"elxprompt", ["iffClass in (2,3)"], "isolation", none⟩,
  ⟨"elxnoflip", ["iffClass == 2"], "isolation", none⟩,
  ⟨"elxflip", ["iffClass == 3"], "isolation", none⟩,
  ⟨"elxphconv", ["iffClass == 5"], "isolation", none⟩,
  ⟨"elxnonprompt", ["iffClass notin (2,3,5)"], "isolation", none⟩,
  ⟨"muxprompt", ["iffClass in (4,11)"], "isolation", none⟩,
  ⟨"muxnoflip", ["iffClass == 4"], "isolation", none⟩,
  ⟨"muxflip", ["iffClass == 11"], "isolation", none⟩,
  ⟨"npxall", ["iffClass notin (0,1,2,3,4,11)"], "isolation", none⟩,
  ⟨"npxtau", ["iffClass == 7"], "isolation", none⟩,
  ⟨"npxbjets", ["iffClass == 8"], "isolation", none⟩,
  ⟨"npxcjets", ["iffClass == 9"], "isolation", none⟩,
  ⟨"npxujets", ["iffClass == 10"], "isolation", none⟩,
  ⟨"unclassified", ["iffClass == 1"], "isolation", none⟩,
  ⟨"unknown", ["iffClass == 0"], "isolation", none⟩,
  ⟨"dRMatchedHbb", ["HadronConeExclExtendedTruthLabelID == 55", "n_truth_higgs > 0", "n_truth_top == 0"], "trigger-xbb", none⟩,
  ⟨"dRMatchedTop", ["n_truth_higgs == 0", "n_truth_top > 0"], "trigger-xbb", none⟩,
  ⟨"dRMatchedQCD", ["n_truth_higgs == 0", "n_truth_top == 0"], "trigger-xbb", none⟩]

/-- Modelled from the spec: `by_category` of the label container — the
labels of one category, in catalog order. -/
def byCategory (ls : List Label) (cat : String) : List Label :=
  ls.filter (fun l => l.category == cat)

/-- Modelled from the spec: the merged virtual view over the physical
sources, a single logical sequence stitched in file order without
copying.  A value of type `α` models one complete row record of a group
(all of its columns); the same construction applies to each group. -/
def mergedView {α : Type} (sources : List (List α)) : List α :=
  sources.flatten

/-- Helper for chunked scanning: accumulate `acc` (reversed) until the
countdown `k` reaches one, emit the chunk, continue with a fresh
countdown of `bs`. -/
def chunkAux {α : Type} (bs : Nat) : List α → Nat → List α → List (List α)
  | [], _, acc => if acc.isEmpty then [] else [acc.reverse]
  | x :: xs, k, acc =>
      if k ≤ 1 then (x :: acc).reverse :: chunkAux bs xs bs []
      else chunkAux bs xs (k - 1) (x :: acc)

/-- Split a row sequence into consecutive chunks of `bs` candidate rows
(the reader's physical access granularity; a chunk holds at least one
row so scanning always advances). -/
def chunkList {α : Type} (bs : Nat) (l : List α) : List (List α) :=
  chunkAux bs l bs []

/-- Modelled from the spec: `H5Reader.stream` — scan candidate chunks in
order, apply the cuts to each (over-reading to compensate for
filtered-out rows), truncate the final chunk once the target post-cut
row count is reached, and stop when the target is reached or the chunks
are exhausted. -/
def streamBatches {α : Type} (pass : α → Bool) : List (List α) → Nat → List (List α)
  | [], _ => []
  | _ :: _, 0 => []
  | c :: cs, t + 1 =>
      if t + 1 ≤ (c.filter pass).length then [(c.filter pass).take (t + 1)]
      else c.filter pass :: streamBatches pass cs (t + 1 - (c.filter pass).length)

/-- Modelled from the spec: `H5Reader.load` — eagerly materialize up to
`t` post-cut rows from the merged view of the sources, reading chunks of
`bs` candidate rows at a time; when the sources exhaust first, all
available post-cut rows are returned (a soft limit, no error), and the
returned count is the length of the result. -/
def H5Reader.load {α : Type} (pass : α → Bool) (bs : Nat)
    (sources : List (List α)) (t : Nat) : List α :=
  (streamBatches pass (chunkList bs (mergedView sources)) t).flatten

/-- Modelled from the spec: the writer session over one group's dataset.
`declared` is the pre-declared placeholder first dimension, `data` the
physical buffer of that length, `cursor` the running write position. -/
structure H5Writer (α : Type) where
  declared : Nat
  data : List α
  cursor : Nat
  closed : Bool

/-- Modelled from the spec: `create` — pre-allocate the output dataset at
the declared placeholder length (`d` is the unwritten fill value of the
store). -/
def H5Writer.create {α : Type} (declared : Nat) (d : α) : H5Writer α :=
  ⟨declared, List.replicate declared d, 0, false⟩

/-- Modelled from the spec: `write(batch)` — append a batch of rows at the
cursor; fails with `WriterClosedError` after `close`, and fails when the
write would run past the declared placeholder. -/
def H5Writer.write {α : Type} (w : H5Writer α) (batch : List α) :
    Except String (H5Writer α) :=
  if w.closed then .error "WriterClosedError"
  else if w.declared < w.cursor + batch.length then .error "WriteBeyondDeclaredShapeError"
  else .ok ⟨w.declared,
    w.data.take w.cursor ++ batch ++ w.data.drop (w.cursor + batch.length),
    w.cursor + batch.length, false⟩

/-- Modelled from the spec: `close()` — resize the dataset down to the
cursor position (truncating the over-declared tail, never padding) and
mark the writer closed. -/
def H5Writer.close {α : Type} (w : H5Writer α) : H5Writer α :=
  ⟨w.declared, w.data.take w.cursor, w.cursor, true⟩

/-- Write a sequence of batches in order, stopping at the first error. -/
def H5Writer.writeAll {α : Type} (w : H5Writer α) :
    List (List α) → Except String (H5Writer α)
  | [] => .ok w
  | b :: bs =>
    match w.write b with
    | .ok w2 => w2.writeAll bs
    | .error e => .error e

/-- The total number of rows in a sequence of batches. -/
def totalLen {α : Type} (batches : List (List α)) : Nat :=
  (batches.map List.length).sum

/-- Rename a column name through the variable map (identity when the
name is not mapped). -/
def lookupRename (vm : List (String × String)) (nm : String) : String :=
  ((vm.find? (fun r => r.1 == nm)).map Prod.snd).getD nm

/-- Integer value recoding of one cell through a remap table (identity on
unmapped values; NaN is untouched). -/
def applyIntsVal (m : List (Int × Int)) : Val → Val
  | .nan => .nan
  | .num i => .num (((m.find? (fun e => e.1 == i)).map Prod.snd).getD i)

/-- The integer-remap function configured for a column (identity when the
column has no remap entry). -/
def intsFnFor (im : List (String × List (Int × Int))) (nm : String) : Val → Val :=
  match im.find? (fun r => r.1 == nm) with
  | some r => applyIntsVal r.2
  | none => id

/-- The elementwise float function configured for a column (identity when
the column has no entry). -/
def floatsFnFor (fm : List (String × (Val → Val))) (nm : String) : Val → Val :=
  match fm.find? (fun r => r.1 == nm) with
  | some r => r.2
  | none => id

/-- Rename the column names of a batch; the column values are untouched. -/
def Batch.renameCols (vm : List (String × String)) (b : Batch) : Batch :=
  ⟨b.n, b.cols.map (fun c => (lookupRename vm c.1, c.2))⟩

/-- Apply the configured integer remaps elementwise to each column. -/
def Batch.mapIntsCols (im : List (String × List (Int × Int))) (b : Batch) : Batch :=
  ⟨b.n, b.cols.map (fun c => (c.1, c.2.map (intsFnFor im c.1)))⟩

/-- Apply the configured float functions elementwise to each column. -/
def Batch.mapFloatsCols (fm : List (String × (Val → Val))) (b : Batch) : Batch :=
  ⟨b.n, b.cols.map (fun c => (c.1, c.2.map (floatsFnFor fm c.1)))⟩

/-- Modelled from the spec: the `Transform` configuration
(`ftag/transform.py` is not among the shipped sources) — a column rename
map, an integer value remap per column, and an elementwise float function
per column (the function itself is abstract here). -/
structure Transform where
  variable_map : List (String × String)
  ints_map : List (String × List (Int × Int))
  floats_map : List (String × (Val → Val))

/-- Modelled from the spec: the reader's per-batch pipeline in its fixed
order — rename, then filter by the active cuts, then integer remap, then
float function. -/
def Transform.processBatch (t : Transform) (nanPasses : Bool) (c : Cuts) (b : Batch) :
    CutsResult :=
  let rb := b.renameCols t.variable_map
  let r := c.apply nanPasses rb
  ⟨r.idx, (r.values.mapIntsCols t.ints_map).mapFloatsCols t.floats_map⟩

/-!  Helper lemmas. -/

theorem mem_dedupAux {x : Pred} {seen l : List Pred} :
    x ∈ dedupAux seen l ↔ x ∈ l ∧ x ∉ seen := by
  induction l generalizing seen with
  | nil => simp [dedupAux]
  | cons p ps ih =>
    by_cases hp : p ∈ seen <;>
      simp only [dedupAux, hp, if_true, if_false, List.mem_cons, ih] <;>
      by_cases hx : x = p <;>
      first
        | (subst hx; tauto)
        | tauto

theorem dedupAux_sublist (seen l : List Pred) : (dedupAux seen l).Sublist l := by
  induction l generalizing seen with
  | nil => simp [dedupAux]
  | cons p ps ih =>
    by_cases hp : p ∈ seen
    · rw [dedupAux, if_pos hp]
      exact (ih seen).trans (List.sublist_cons_self p ps)
    · rw [dedupAux, if_neg hp]
      exact (ih (p :: seen)).cons₂ p

theorem nodup_dedupAux (seen l : List Pred) : (dedupAux seen l).Nodup := by
  induction l generalizing seen with
  | nil => simp [dedupAux]
  | cons p ps ih =>
    by_cases hp : p ∈ seen
    · rw [dedupAux, if_pos hp]
      exact ih seen
    · rw [dedupAux, if_neg hp]
      refine List.nodup_cons.mpr ⟨fun hmem => ?_, ih (p :: seen)⟩
      exact (mem_dedupAux.mp hmem).2 (List.mem_cons_self p seen)

theorem all_dedupFirst (l : List Pred) (f : Pred → Bool) :
    (dedupFirst l).all f = l.all f := by
  have hmem : ∀ x : Pred, x ∈ dedupFirst l ↔ x ∈ l := by
    intro x
    rw [dedupFirst, mem_dedupAux]
    simp
  have hiff : ((dedupFirst l).all f = true) ↔ (l.all f = true) := by
    simp only [List.all_eq_true]
    exact ⟨fun h x hx => h x ((hmem x).mpr hx), fun h x hx => h x ((hmem x).mp hx)⟩
  exact Bool.eq_iff_iff.mpr hiff

theorem passRow_fromList (np : Bool) (l : List Pred) (b : Batch) (i : Nat) :
    (Cuts.fromList l).passRow np b i
      = l.all (fun p => evalPredRow np b i p == some true) := by
  rw [Cuts.passRow, Cuts.fromList, all_dedupFirst]

theorem passRow_combine (np : Bool) (a b : Cuts) (bt : Batch) (i : Nat) :
    (a.combine b).passRow np bt i = (a.passRow np bt i && b.passRow np bt i) := by
  rw [Cuts.combine, passRow_fromList, List.all_append]
  rfl

theorem strToCmp_cmpToStr (op : CmpOp) : strToCmp (cmpToStr op) = some op := by
  cases op <;> simp [strToCmp, cmpToStr]

theorem wf_of_parse3 {a b c : Tok} {p : Pred} (h : parse3 a b c = some p) : wfPred p := by
  unfold parse3 at h
  split at h
  · rcases Option.map_eq_some'.mp h with ⟨op, hop, rfl⟩
    trivial
  · split_ifs at h
    all_goals
      first
        | exact Option.noConfusion h
        | (injection h with h
           subst h
           assumption)
  · exact Option.noConfusion h

theorem wf_of_parse5 {a b c d e : Tok} {p : Pred} (h : parse5 a b c d e = some p) :
    wfPred p := by
  unfold parse5 at h
  split at h
  · split_ifs at h
    all_goals
      first
        | exact Option.noConfusion h
        | (injection h with h
           subst h
           assumption)
  · exact Option.noConfusion h

theorem wf_of_parse {ts : List Tok} {p : Pred} (h : parse ts = some p) : wfPred p := by
  rcases ts with _ | ⟨a, _ | ⟨b, _ | ⟨c, _ | ⟨d, _ | ⟨e, _ | ⟨f, rest⟩⟩⟩⟩⟩⟩
  all_goals simp only [parse] at h
  any_goals exact Option.noConfusion h
  · exact wf_of_parse3 h
  · exact wf_of_parse5 h

theorem parse_render_of_wf {p : Pred} (hw : wfPred p) : parse (render p) = some p := by
  cases p <;>
    simp_all [render, parse, parse3, parse5, wfPred, strToCmp_cmpToStr]

theorem chunkAux_flatten {α : Type} (bs : Nat) (l : List α) (k : Nat) (acc : List α) :
    (chunkAux bs l k acc).flatten = acc.reverse ++ l := by
  induction l generalizing k acc with
  | nil =>
    by_cases h : acc.isEmpty
    · rw [chunkAux, if_pos h]
      simp [List.isEmpty_iff.mp h]
    · rw [chunkAux, if_neg h]
      simp
  | cons x xs ih =>
    by_cases h : k ≤ 1
    · rw [chunkAux, if_pos h]
      simp [ih]
    · rw [chunkAux, if_neg h]
      simp [ih]

theorem chunkList_flatten {α : Type} (bs : Nat) (l : List α) :
    (chunkList bs l).flatten = l := by
  rw [chunkList, chunkAux_flatten]
  rfl

theorem streamBatches_flatten {α : Type} (pass : α → Bool) (cs : List (List α)) (t : Nat) :
    (streamBatches pass cs t).flatten = (cs.flatten.filter pass).take t := by
  induction cs generalizing t with
  | nil => simp [streamBatches]
  | cons c cs ih =>
    match t with
    | 0 => simp [streamBatches]
    | t + 1 =>
      rw [streamBatches]
      have hf : (c :: cs).flatten = c ++ cs.flatten := rfl
      by_cases hle : t + 1 ≤ (c.filter pass).length
      · rw [if_pos hle, hf, List.filter_append, List.take_append_of_le_length hle]
        simp
      · rw [if_neg hle, List.flatten_cons, ih, hf, List.filter_append]
        have ht : t + 1 = (c.filter pass).length + (t + 1 - (c.filter pass).length) := by
          omega
        conv_rhs => rw [ht]
        rw [List.take_append]

theorem load_eq_take {α : Type} (pass : α → Bool) (bs : Nat)
    (sources : List (List α)) (t : Nat) :
    H5Reader.load pass bs sources t = ((mergedView sources).filter pass).take t := by
  rw [H5Reader.load, streamBatches_flatten, chunkList_flatten]

theorem writeAll_spec {α : Type} (batches : List (List α)) (w : H5Writer α)
    (hcl : w.closed = false) (hlen : w.data.length = w.declared)
    (hfit : w.cursor + totalLen batches ≤ w.declared) :
    w.writeAll batches = .ok ⟨w.declared,
      w.data.take w.cursor ++ batches.flatten ++ w.data.drop (w.cursor + totalLen batches),
      w.cursor + totalLen batches, false⟩ := by
  induction batches generalizing w with
  | nil =>
    rw [H5Writer.writeAll]
    have hd : w.data.take w.cursor ++ List.flatten (α := α) [] ++
        w.data.drop (w.cursor + totalLen ([] : List (List α))) = w.data := by
      simp [totalLen]
    rw [hd]
    cases w
    simp_all [totalLen]
  | cons b bs ih =>
    have htot : totalLen (b :: bs) = b.length + totalLen bs := by
      simp [totalLen]
    have hfit2 : w.cursor + b.length + totalLen bs ≤ w.declared := by omega
    have hcur : w.cursor ≤ w.data.length := by omega
    rw [H5Writer.writeAll, H5Writer.write, if_neg (by simp [hcl]), if_neg (by
      simp only [not_lt]
      omega)]
    have hlen2 : (w.data.take w.cursor ++ b ++ w.data.drop (w.cursor + b.length)).length
        = w.declared := by
      simp only [List.length_append, List.length_take, List.length_drop]
      omega
    dsimp only
    have hl1 : (w.data.take w.cursor ++ b).length = w.cursor + b.length := by
      simp only [List.length_append, List.length_take]
      omega
    rw [ih _ rfl hlen2 hfit2]
    have htake : (w.data.take w.cursor ++ b ++ w.data.drop (w.cursor + b.length)).take
        (w.cursor + b.length) = w.data.take w.cursor ++ b :=
      List.take_left' hl1
    have hdrop : (w.data.take w.cursor ++ b ++ w.data.drop (w.cursor + b.length)).drop
        (w.cursor + b.length + totalLen bs)
        = w.data.drop (w.cursor + b.length + totalLen bs) := by
      rw [show w.cursor + b.length + totalLen bs
            = (w.data.take w.cursor ++ b).length + totalLen bs by rw [hl1],
        List.drop_append, List.drop_drop]
      congr 1
      omega
    simp only [Except.ok.injEq, H5Writer.mk.injEq, htake, hdrop, htot, List.flatten_cons,
      true_and, and_true]
    refine ⟨?_, by omega⟩
    rw [show w.cursor + (b.length + totalLen bs) = w.cursor + b.length + totalLen bs by omega]
    simp [List.append_assoc]

theorem writeAll_close_spec {α : Type} (D : Nat) (d : α) (batches : List (List α))
    (hfit : totalLen batches ≤ D) :
    ∃ w : H5Writer α, (H5Writer.create D d).writeAll batches = .ok w
      ∧ w.close.data = batches.flatten
      ∧ w.close.data.length = totalLen batches
      ∧ w.close.data.length = w.cursor := by
  have hspec := writeAll_spec batches (H5Writer.create D d) rfl
    (by simp [H5Writer.create]) (by simpa [H5Writer.create] using hfit)
  have hfl : batches.flatten.length = totalLen batches := by
    simp [totalLen]
  refine ⟨_, hspec, ?_, ?_, ?_⟩ <;>
    simp only [H5Writer.close, H5Writer.create, List.take_zero, List.nil_append,
      Nat.zero_add] <;>
    rw [List.take_left' hfl]
  · rw [hfl]
  · rw [hfl]

/-!  The claims. -/

/-- Claim C1: for a record batch whose column pt holds the values
NaN, 25000, 15000, the predicate pt > 20000 under the default NaN policy
selects exactly row 1 — the NaN row 0 is excluded, not included — and the
same exclusion of the NaN row holds for the != operator, unless the
explicit "NaN passes" flag is set, in which case the NaN row passes. -/
theorem nan_rows_excluded_by_default :
    (Cuts.fromList [.cmp "pt" .gt 20000]).selectIdx false
        ⟨3, [("pt", [.nan, .num 25000, .num 15000])]⟩ = [1]
    ∧ (Cuts.fromList [.cmp "pt" .ne 20000]).selectIdx false
        ⟨3, [("pt", [.nan, .num 25000, .num 15000])]⟩ = [1, 2]
    ∧ (Cuts.fromList [.cmp "pt" .ne 20000]).selectIdx true
        ⟨3, [("pt", [.nan, .num 25000, .num 15000])]⟩ = [0, 1, 2] := by
  decide

/-- Claim C2: for every pair of selection sets and every record batch on
which both (and their combination) evaluate without a missing-column
error, the row-index set selected by combine(A, B) — the de-duplicated
union of the predicate lists with AND semantics — is exactly the
intersection of the row sets selected by A and by B independently. -/
theorem combine_selects_intersection (np : Bool) (a b : Cuts) (bt : Batch)
    (ra rb rab : List Nat)
    (ha : a.selectChecked np bt = .ok ra)
    (hb : b.selectChecked np bt = .ok rb)
    (hab : (a.combine b).selectChecked np bt = .ok rab) :
    ∀ i : Nat, i ∈ rab ↔ i ∈ ra ∧ i ∈ rb := by
  unfold Cuts.selectChecked at ha hb hab
  split at ha
  case isFalse => exact absurd ha (by simp)
  split at hb
  case isFalse => exact absurd hb (by simp)
  split at hab
  case isFalse => exact absurd hab (by simp)
  obtain rfl : a.selectIdx np bt = ra := by injection ha
  obtain rfl : b.selectIdx np bt = rb := by injection hb
  obtain rfl : (a.combine b).selectIdx np bt = rab := by injection hab
  intro i
  simp only [Cuts.selectIdx, List.mem_filter, List.mem_range, passRow_combine,
    Bool.and_eq_true]
  tauto

/-- Witness for claim C2 at a concrete batch and pair of selections. -/
theorem combine_selects_intersection_witness :
    ((Cuts.fromList [.cmp "pt" .gt 20000]).selectChecked false
        ⟨3, [("pt", [.num 25000, .num 10000, .num 40000])]⟩ = .ok [0, 2])
    ∧ ((Cuts.fromList [.cmp "pt" .lt 30000]).selectChecked false
        ⟨3, [("pt", [.num 25000, .num 10000, .num 40000])]⟩ = .ok [0, 1])
    ∧ (((Cuts.fromList [.cmp "pt" .gt 20000]).combine
          (Cuts.fromList [.cmp "pt" .lt 30000])).selectChecked false
        ⟨3, [("pt", [.num 25000, .num 10000, .num 40000])]⟩ = .ok [0])
    ∧ (∀ i : Nat, i ∈ [0] ↔ i ∈ [0, 2] ∧ i ∈ [0, 1]) :=
  ⟨by rfl, by rfl, by rfl,
    combine_selects_intersection false
      (Cuts.fromList [.cmp "pt" .gt 20000]) (Cuts.fromList [.cmp "pt" .lt 30000])
      ⟨3, [("pt", [.num 25000, .num 10000, .num 40000])]⟩
      [0, 2] [0, 1] [0] (by rfl) (by rfl) (by rfl)⟩

/-- Claim C7: fromList of a duplicated raw expression yields a selection
set with exactly one predicate, and in general structurally identical
duplicates are removed while the first-seen order of the distinct
predicates is preserved (the result is a duplicate-free sublist of the
input with the same membership, and the first of two distinct
predicates stays first). -/
theorem fromList_removes_duplicates (e p q : Pred) (es : List Pred) (hpq : p ≠ q) :
    (Cuts.fromList [e, e]).preds = [e]
    ∧ (Cuts.fromList [p, q, p]).preds = [p, q]
    ∧ (Cuts.fromList es).preds.Nodup
    ∧ (Cuts.fromList es).preds.Sublist es
    ∧ (∀ x, x ∈ (Cuts.fromList es).preds ↔ x ∈ es) := by
  refine ⟨?_, ?_, nodup_dedupAux _ _, dedupAux_sublist _ _,
      fun x => by simp [Cuts.fromList, dedupFirst, mem_dedupAux]⟩
  · simp [Cuts.fromList, dedupFirst, dedupAux]
  · simp [Cuts.fromList, dedupFirst, dedupAux, hpq, Ne.symm hpq]

/-- Witness for claim C7 at concrete predicates. -/
theorem fromList_removes_duplicates_witness :
    ((.cmp "pt" .gt 1 : Pred) ≠ (.cmp "pt" .gt 2 : Pred))
    ∧ ((Cuts.fromList [.cmp "pt" .gt 1, .cmp "pt" .gt 1]).preds = [.cmp "pt" .gt 1]
      ∧ (Cuts.fromList [.cmp "pt" .gt 1, .cmp "pt" .gt 2, .cmp "pt" .gt 1]).preds
          = [.cmp "pt" .gt 1, .cmp "pt" .gt 2]
      ∧ (Cuts.fromList [.cmp "pt" .gt 1, .cmp "pt" .gt 1]).preds.Nodup
      ∧ (Cuts.fromList [.cmp "pt" .gt 1, .cmp "pt" .gt 1]).preds.Sublist
          [.cmp "pt" .gt 1, .cmp "pt" .gt 1]
      ∧ (∀ x, x ∈ (Cuts.fromList [.cmp "pt" .gt 1, .cmp "pt" .gt 1]).preds
          ↔ x ∈ [Pred.cmp "pt" .gt 1, .cmp "pt" .gt 1])) :=
  ⟨by decide,
    fromList_removes_duplicates (.cmp "pt" .gt 1) (.cmp "pt" .gt 1) (.cmp "pt" .gt 2)
      [.cmp "pt" .gt 1, .cmp "pt" .gt 1] (by decide)⟩

/-- Claim C8: the predicate eventNumber % 2 == 0 over the column values
10, 11, 12, 13 selects exactly the indices 0 and 2, and the
var % M != n form selects exactly the complementary rows 1 and 3. -/
theorem modulo_selection :
    (Cuts.fromList [.modEq "eventNumber" 2 0]).selectIdx false
        ⟨4, [("eventNumber", [.num 10, .num 11, .num 12, .num 13])]⟩ = [0, 2]
    ∧ (Cuts.fromList [.modNe "eventNumber" 2 0]).selectIdx false
        ⟨4, [("eventNumber", [.num 10, .num 11, .num 12, .num 13])]⟩ = [1, 3] := by
  decide

/-- Claim C9: for every expression text (at token level) that parses, the
rendered canonical form of the parsed predicate re-parses to the very
same predicate, so parse(render(parse(expr))) = parse(expr); render is a
plain function of the predicate, hence deterministic across runs. -/
theorem parse_render_idempotent (ts : List Tok) (p : Pred) (h : parse ts = some p) :
    parse (render p) = parse ts := by
  rw [h]
  exact parse_render_of_wf (wf_of_parse h)

/-- Witness for claim C9 at a concrete expression text. -/
theorem parse_render_idempotent_witness :
    (parse [.id "pt", .sym ">", .int 20000] = some (.cmp "pt" .gt 20000))
    ∧ parse (render (.cmp "pt" .gt 20000)) = parse [.id "pt", .sym ">", .int 20000] :=
  ⟨by decide,
    parse_render_idempotent [.id "pt", .sym ">", .int 20000] (.cmp "pt" .gt 20000)
      (by decide)⟩

/-- Claim C10: in the catalog, the single-btag category is exactly
bjets, cjets, ujets, taujets in catalog order, none of them sets an
explicit probability-column override, and the px accessor — p plus the
name with its "jets" suffix removed — yields pb, pc, pu, ptau. -/
theorem single_btag_px :
    ((byCategory flavoursList "single-btag").map Label.name
      = ["bjets", "cjets", "ujets", "taujets"])
    ∧ ((byCategory flavoursList "single-btag").all (fun l => l.px_ == none) = true)
    ∧ ((byCategory flavoursList "single-btag").map Label.px
      = ["pb", "pc", "pu", "ptau"]) := by
  decide

/-- Claim C4: requesting more rows than are available after the cuts
across all sources is a soft limit — load returns exactly all available
post-cut rows, without an error path, and the returned count (the length
of the result) equals the available count. -/
theorem load_soft_limit {α : Type} (pass : α → Bool) (bs t : Nat)
    (sources : List (List α))
    (h : ((mergedView sources).filter pass).length ≤ t) :
    H5Reader.load pass bs sources t = (mergedView sources).filter pass
    ∧ (H5Reader.load pass bs sources t).length
      = ((mergedView sources).filter pass).length := by
  rw [load_eq_take, List.take_of_length_le h]
  exact ⟨rfl, rfl⟩

/-- Witness for claim C4: two sources with two post-cut rows, requesting
ten. -/
theorem load_soft_limit_witness :
    (((mergedView [[1, 2], [3]]).filter (fun x => decide (1 < x))).length ≤ 10)
    ∧ (H5Reader.load (fun x => decide (1 < x)) 2 [[1, 2], [3]] 10
        = (mergedView [[1, 2], [3]]).filter (fun x => decide (1 < x))
      ∧ (H5Reader.load (fun x => decide (1 < x)) 2 [[1, 2], [3]] 10).length
        = ((mergedView [[1, 2], [3]]).filter (fun x => decide (1 < x))).length) :=
  ⟨by decide, load_soft_limit (fun x => decide (1 < x)) 2 10 [[1, 2], [3]] (by decide)⟩

/-- Claim C5: when the declared placeholder is at least the number of
rows written, the writes succeed and close() resizes the dataset down to
exactly the rows written (the write cursor): the final length is the
total written row count, never the declared placeholder. -/
theorem close_truncates_to_written {α : Type} (D : Nat) (d : α)
    (batches : List (List α)) (hfit : totalLen batches ≤ D) :
    ∃ w : H5Writer α, (H5Writer.create D d).writeAll batches = .ok w
      ∧ w.close.data = batches.flatten
      ∧ w.close.data.length = totalLen batches
      ∧ w.close.data.length = w.cursor :=
  writeAll_close_spec D d batches hfit

/-- Witness for claim C5: three rows written against a declared
placeholder of ten. -/
theorem close_truncates_to_written_witness :
    (totalLen [[1, 2], [3]] ≤ 10)
    ∧ ∃ w : H5Writer Nat, (H5Writer.create 10 0).writeAll [[1, 2], [3]] = .ok w
      ∧ w.close.data = [[1, 2], [3]].flatten
      ∧ w.close.data.length = totalLen [[1, 2], [3]]
      ∧ w.close.data.length = w.cursor :=
  ⟨by decide, close_truncates_to_written 10 0 [[1, 2], [3]] (by decide)⟩

/-- Claim C6: reading t rows unshuffled and cut-free from the merged
sources, writing the streamed batches, and closing yields a destination
dataset identical to the rows read — which are exactly the first t rows
of the merged view — for every t (zero, one, or many full batches). -/
theorem write_read_roundtrip {α : Type} (sources : List (List α)) (bs t D : Nat)
    (d : α) (hD : (mergedView sources).length ≤ D) :
    ∃ w : H5Writer α,
      (H5Writer.create D d).writeAll
          (streamBatches (fun _ => true) (chunkList bs (mergedView sources)) t) = .ok w
      ∧ w.close.data = H5Reader.load (fun _ => true) bs sources t
      ∧ H5Reader.load (fun _ => true) bs sources t = (mergedView sources).take t := by
  have hload : H5Reader.load (fun _ => true) bs sources t = (mergedView sources).take t := by
    rw [load_eq_take, List.filter_true]
  have hfl : totalLen (streamBatches (fun _ => true) (chunkList bs (mergedView sources)) t)
      = (H5Reader.load (fun _ => true) bs sources t).length := by
    rw [H5Reader.load]
    simp [totalLen]
  have hfit : totalLen (streamBatches (fun _ => true) (chunkList bs (mergedView sources)) t)
      ≤ D := by
    rw [hfl, hload]
    simp only [List.length_take]
    omega
  obtain ⟨w, hw, hdata, hlen, hcur⟩ := writeAll_close_spec D d _ hfit
  exact ⟨w, hw, by rw [hdata]; rfl, hload⟩

/-- Witness for claim C6: five rows over two sources, batch size two,
four rows requested, placeholder ten. -/
theorem write_read_roundtrip_witness :
    ((mergedView [[1, 2, 3], [4, 5]]).length ≤ 10)
    ∧ ∃ w : H5Writer Nat,
      (H5Writer.create 10 0).writeAll
          (streamBatches (fun _ => true) (chunkList 2 (mergedView [[1, 2, 3], [4, 5]])) 4)
        = .ok w
      ∧ w.close.data = H5Reader.load (fun _ => true) 2 [[1, 2, 3], [4, 5]] 4
      ∧ H5Reader.load (fun _ => true) 2 [[1, 2, 3], [4, 5]] 4
        = (mergedView [[1, 2, 3], [4, 5]]).take 4 :=
  ⟨by decide, write_read_roundtrip [[1, 2, 3], [4, 5]] 2 4 10 0 (by decide)⟩

/-- Claim C3: with a rename, an integer remap and a float function all
configured, the per-batch pipeline applies them in the fixed order
rename, then filter/cut, then integer remap, then float function: the
selected indices are those of the cuts evaluated on the renamed batch
whose values are still the raw ones (renaming leaves every column's
values unchanged), and each returned column holds the renamed name with
the float function applied after the integer remap to the raw values of
the selected rows. -/
theorem transform_pipeline_order (t : Transform) (np : Bool) (c : Cuts) (b : Batch)
    (k : Nat) (nm : String) (vs : List Val) (h : b.cols[k]? = some (nm, vs)) :
    (t.processBatch np c b).idx = c.selectIdx np (b.renameCols t.variable_map)
    ∧ (b.renameCols t.variable_map).cols.map Prod.snd = b.cols.map Prod.snd
    ∧ (t.processBatch np c b).values.cols[k]? = some
        (lookupRename t.variable_map nm,
          ((c.selectIdx np (b.renameCols t.variable_map)).filterMap
              (fun i => vs[i]?)).map
            (fun v => floatsFnFor t.floats_map (lookupRename t.variable_map nm)
              (intsFnFor t.ints_map (lookupRename t.variable_map nm) v))) := by
  refine ⟨rfl, ?_, ?_⟩
  · rw [Batch.renameCols]
    simp [List.map_map]
  · simp only [Transform.processBatch, Cuts.apply, Batch.mapFloatsCols, Batch.mapIntsCols,
      Batch.takeRows, Batch.renameCols, List.map_map, List.getElem?_map, h, Option.map_some]
    simp [Function.comp, List.map_map]

/-- Witness for claim C3: the truth-label column is renamed to
flavour_label, the cut selects raw label 5, the remap sends 5 to 1, and
the float function adds 100 — the cut sees the raw value 5 while the
output holds 101. -/
theorem transform_pipeline_order_witness :
    ((Batch.mk 3 [("HadronConeExclTruthLabelID", [.num 4, .num 5, .num 0])]).cols[0]?
      = some ("HadronConeExclTruthLabelID", [Val.num 4, .num 5, .num 0]))
    ∧ (Transform.processBatch
        ⟨[("HadronConeExclTruthLabelID", "flavour_label")],
          [("flavour_label", [(5, 1), (4, 2)])],
          [("flavour_label", fun v => match v with
            | Val.nan => Val.nan
            | Val.num i => Val.num (i + 100))]⟩
        false (Cuts.fromList [.cmp "flavour_label" .eq 5])
        (Batch.mk 3 [("HadronConeExclTruthLabelID", [.num 4, .num 5, .num 0])])).idx
      = [1]
    ∧ (Transform.processBatch
        ⟨[("HadronConeExclTruthLabelID", "flavour_label")],
          [("flavour_label", [(5, 1), (4, 2)])],
          [("flavour_label", fun v => match v with
            | Val.nan => Val.nan
            | Val.num i => Val.num (i + 100))]⟩
        false (Cuts.fromList [.cmp "flavour_label" .eq 5])
        (Batch.mk 3 [("HadronConeExclTruthLabelID", [.num 4, .num 5, .num 0])])).values.cols[0]?
      = some ("flavour_label", [Val.num 101]) := by
  refine ⟨by rfl, ?_, ?_⟩
  · rw [(transform_pipeline_order _ false _ _ 0 _ _ (by rfl)).1]
    decide
  · rw [(transform_pipeline_order _ false _ _ 0 _ _ (by rfl)).2.2]
    decide

end FtagSpec
